import Mathlib

/-!
Verification of the session orchestration and event-routing engine of
`backend/worker.py` (class `WorkerManager`) against its specification.

The Python code is shallowly embedded: strings are `List Char` (ASCII
fragment of Python `str`), Python `int(...)` applied to a string is the
partial function `pyInt?`, handlers become pure functions from an event
(and the configuration captured by the closure) to the list of actions
they perform, and the background runners become functions producing the
ordered trace of their observable effects (delivery attempts and sleeps).
-/

/-- ASCII decimal digit test, as used by the character classes of the
Python code (`str.isdigit`, `int`, and the `[a-zA-Z0-9_]` regex class),
restricted to ASCII input. -/
def isAsciiDigit (c : Char) : Bool :=
  '0' ≤ c && c ≤ '9'

/-- ASCII whitespace, modelling the characters stripped by Python
`str.strip()` (restricted to ASCII input). -/
def pyIsSpace (c : Char) : Bool :=
  c = ' ' || c = '\t' || c = '\n' || c = '\r' || c = '\x0b' || c = '\x0c'

/-- Lower-case one character, modelling Python `str.lower` on ASCII. -/
def lowerChar (c : Char) : Char :=
  if 'A' ≤ c && c ≤ 'Z' then Char.ofNat (c.toNat + 32) else c

/-- Python `s.lower()` on ASCII strings. -/
def pyLower (s : List Char) : List Char :=
  s.map lowerChar

/-- Python `s.strip()`: whitespace removed from both ends. -/
def pyStrip (s : List Char) : List Char :=
  ((s.dropWhile pyIsSpace).reverse.dropWhile pyIsSpace).reverse

/-- Python `s.lstrip(c)` for a single-character argument: all leading
copies of `c` removed. -/
def lstripChar (c : Char) (s : List Char) : List Char :=
  s.dropWhile (· = c)

/-- Python `s.rstrip(c)` for a single-character argument: all trailing
copies of `c` removed. -/
def rstripChar (c : Char) (s : List Char) : List Char :=
  (s.reverse.dropWhile (· = c)).reverse

/-- Python `s.split(sep)` for a one-character separator `sep`:
`"a/b".split("/") = ["a","b"]`, `"".split("/") = [""]`,
`"/".split("/") = ["",""]`. -/
def splitOnChar (c : Char) : List Char → List (List Char)
  | [] => [[]]
  | x :: xs =>
    if x = c then [] :: splitOnChar c xs
    else
      match splitOnChar c xs with
      | [] => [[x]]
      | ys :: rest => (x :: ys) :: rest

/-- Python `s.isdigit()` on ASCII strings: non-empty and all digits. -/
def pyIsDigitStr (s : List Char) : Bool :=
  !s.isEmpty && s.all isAsciiDigit

/-- Digit-run part of Python `int(str)`: a non-empty digit sequence in
which single underscores may separate digits (`"1_0"` is legal, `"1__0"`,
`"_1"` and `"1_"` are not). Accumulates the value into `acc`. -/
def pyDigitsAux : List Char → Nat → Option Nat
  | [], acc => some acc
  | c :: rest, acc =>
    if isAsciiDigit c then pyDigitsAux rest (acc * 10 + (c.toNat - 48))
    else if c = '_' then
      match rest with
      | c2 :: rest2 =>
        if isAsciiDigit c2 then pyDigitsAux rest2 (acc * 10 + (c2.toNat - 48))
        else none
      | [] => none
    else none

/-- Unsigned digit string accepted by Python `int(str)`: must start with
a digit, then `pyDigitsAux`. -/
def pyDigits? (s : List Char) : Option Nat :=
  match s with
  | [] => none
  | c :: _ => if isAsciiDigit c then pyDigitsAux s 0 else none

/-- Python `int(s)` on an ASCII string: surrounding whitespace stripped,
one optional sign, then a digit run; `none` models the `ValueError`
raised on any other input (base-10 literals only, as in the code). -/
def pyInt? (s : List Char) : Option Int :=
  match pyStrip s with
  | '-' :: rest => (pyDigits? rest).map (fun n => -(n : Int))
  | '+' :: rest => (pyDigits? rest).map (fun n => (n : Int))
  | t => (pyDigits? t).map (fun n => (n : Int))

/-- `isPrefixOfList needle l` : `needle` is a prefix of `l`. -/
def isPrefixOfList : List Char → List Char → Bool
  | [], _ => true
  | _ :: _, [] => false
  | a :: xs, b :: ys => a = b && isPrefixOfList xs ys

/-- Python `needle in hay` on strings: `needle` occurs as a contiguous
substring of `hay` (the empty needle occurs in every string). -/
def containsSub (needle : List Char) : List Char → Bool
  | [] => isPrefixOfList needle []
  | c :: rest => isPrefixOfList needle (c :: rest) || containsSub needle rest

/-- The keyword-list parse used by both the auto-reply and the
smart-selling setup in `_run_client`
(`[k.strip().lower() for k in s.split(',') if k.strip()]`):
split on commas, drop entries that are blank after stripping,
strip and lower-case the rest. -/
def parseKeywords (s : List Char) : List (List Char) :=
  ((splitOnChar ',' s).filter (fun k => !(pyStrip k).isEmpty)).map
    (fun k => pyLower (pyStrip k))

/-- The fields of a Telethon `NewMessage` event consulted by the
handlers in `_run_client`. -/
structure InboundEvent where
  chat_id : Int
  raw_text : List Char
  is_private : Bool
  out : Bool

/-- `AutoReplyConfig` document (`auto_reply_settings_collection`):
`message` and the raw comma-separated `keywords` string
(`settings.get('keywords') or ""` collapses a missing field to `""`). -/
structure AutoReplySettings where
  message : List Char
  keywords : List Char

/-- The closure `auto_reply_handler` registered in `_run_client`
(worker.py lines 118-133), returning the list of reply messages it
sends for one event: only private, inbound (non-self) messages are
considered; with a non-empty parsed keyword list it replies exactly
when some keyword is a substring of the lower-cased text, and with an
empty keyword list it replies to every such message. -/
def auto_reply_handler (settings : AutoReplySettings) (event : InboundEvent) :
    List (List Char) :=
  if event.is_private && !event.out then
    let message_text := pyLower event.raw_text
    let keywords := parseKeywords settings.keywords
    if !keywords.isEmpty then
      if keywords.any (fun k => containsSub k message_text) then [settings.message]
      else []
    else [settings.message]
  else []

/-- `SmartSellingConfig` document (`smart_selling_settings_collection`). -/
structure SmartSellingSettings where
  enabled : Bool
  message : List Char
  must_contain : List Char
  maybe_contain : List Char

/-- The closure `smart_selling_handler` registered in `_run_client`
(worker.py lines 152-175), returning the list of reply messages it
sends for one event, with the `must_pass` / `maybe_pass` /
`should_reply` computation transcribed from the code. -/
def smart_selling_handler (s : SmartSellingSettings) (event : InboundEvent) :
    List (List Char) :=
  if event.is_private && !event.out then
    let message_text := pyLower event.raw_text
    let must_contain := parseKeywords s.must_contain
    let maybe_contain := parseKeywords s.maybe_contain
    let must_pass :=
      if !must_contain.isEmpty then
        must_contain.all (fun k => containsSub k message_text)
      else true
    let maybe_pass :=
      if !maybe_contain.isEmpty then
        maybe_contain.any (fun k => containsSub k message_text)
      else false
    let should_reply :=
      if !must_contain.isEmpty && !maybe_contain.isEmpty then must_pass && maybe_pass
      else if !must_contain.isEmpty then must_pass
      else if !maybe_contain.isEmpty then maybe_pass
      else false
    if should_reply then [s.message] else []
  else []

/-- A `ForwardingRule` document as consulted by `_run_client`: the
`source_chat` and `destination_chat` fields, both stored as strings
(the rule list is already filtered to status `Active`/`active` by the
database query, so only these two fields matter to the handler). -/
structure ForwardingRule where
  source_chat : List Char
  destination_chat : List Char

/-- One rule's contribution to the `source_chat_ids` list comprehension
(worker.py lines 81-85): `some none` when the rule is filtered out by
`str(source).lstrip('-').isdigit()`, `some (some n)` when it passes the
filter and `int(source)` yields `n`, and `none` when it passes the
filter but `int(source)` raises (e.g. source `"--5"`), which crashes
session setup. -/
def sourceIdOfRule (r : ForwardingRule) : Option (Option Int) :=
  if pyIsDigitStr (lstripChar '-' r.source_chat) then
    match pyInt? r.source_chat with
    | some n => some (some n)
    | none => none
  else some none

/-- The `source_chat_ids` computed at handler-registration time:
the `int(source)` of every rule passing the digit filter, or `none`
when the comprehension itself raises. (The code wraps the result in
`list(set(...))`; only membership is ever used, via
`events.NewMessage(chats=source_chat_ids)`, so duplicates are kept.) -/
def source_chat_ids? : List ForwardingRule → Option (List Int)
  | [] => some []
  | r :: rs =>
    match sourceIdOfRule r, source_chat_ids? rs with
    | some (some n), some l => some (n :: l)
    | some none, some l => some l
    | _, _ => none

/-- The body of the forwarding closure `handler` (worker.py lines
89-104) on an event with chat id `chat`: rules are scanned in order;
`int(rule.source_chat)` is evaluated OUTSIDE the per-rule `try`, so a
rule whose source does not parse raises an uncaught error that aborts
the remaining rules (second component `false`); for a rule whose
parsed source equals `chat`, `int(rule.destination_chat)` and the
forward happen inside the `try`, so an unparsable destination is
caught and produces no forward. The first component is the ordered
list of destinations the handler calls `event.forward_to` on. -/
def runHandler (rules : List ForwardingRule) (chat : Int) : List Int × Bool :=
  match rules with
  | [] => ([], true)
  | r :: rs =>
    match pyInt? r.source_chat with
    | none => ([], false)
    | some s =>
      if s = chat then
        match pyInt? r.destination_chat with
        | some d =>
          let p := runHandler rs chat
          (d :: p.1, p.2)
        | none => runHandler rs chat
      else runHandler rs chat

/-- End-to-end forwarding behaviour of a supervised session with loaded
rule set `rules` for an inbound event in chat `chat`: the handler is
only invoked when `chat` is among the registered `source_chat_ids`
(and never when registration itself crashed); the result is the list
of forward destinations together with a flag recording whether the
handler ran to completion. -/
def sessionForwards (rules : List ForwardingRule) (chat : Int) : List Int × Bool :=
  match source_chat_ids? rules with
  | none => ([], false)
  | some ids => if chat ∈ ids then runHandler rules chat else ([], true)

/-- The database status values written by `_run_client`. -/
inductive AccountStatus where
  | Online
  | Error
  | Offline
deriving DecidableEq, Repr

/-- How one `_run_client` invocation ends: the connection attempt
itself fails, something after a successful connect raises, or the
client runs until a normal disconnect. -/
inductive RunOutcome where
  | connectFail
  | laterFail
  | cleanDisconnect
deriving DecidableEq, Repr

/-- Observable end state of `_run_client` (worker.py lines 54-186):
the ordered list of status values persisted for the account, and
whether the account is still in the `self.clients` registry when the
coroutine returns. -/
structure RunClientResult where
  status_writes : List AccountStatus
  in_registry_after : Bool
deriving DecidableEq, Repr

/-- `_run_client` transcribed as a status/registry trace: the `try`
writes `Online` once connected, the `except` writes `Error`, and the
`finally` always removes the account from the registry and writes
`Offline` — including on the connection-failure path, where `Offline`
is therefore the last write, after `Error`. -/
def run_client_model : RunOutcome → RunClientResult
  | RunOutcome.connectFail =>
    { status_writes := [AccountStatus.Error, AccountStatus.Offline]
      in_registry_after := false }
  | RunOutcome.laterFail =>
    { status_writes := [AccountStatus.Online, AccountStatus.Error, AccountStatus.Offline]
      in_registry_after := false }
  | RunOutcome.cleanDisconnect =>
    { status_writes := [AccountStatus.Online, AccountStatus.Offline]
      in_registry_after := false }

/-- Observable steps of `_forwarding_job_runner`: the initial
`asyncio.sleep(delay)`, one delivery attempt per target (`ok` records
whether the attempt raised; a failed attempt is logged by the inner
`except` and the loop continues), the per-cycle
`asyncio.sleep(cycle_delay)`, and the outer `except`'s log line for a
job whose message reference could not be parsed. -/
inductive JobEvent where
  | sleep_initial
  | deliver (target : List Char) (ok : Bool)
  | sleep_cycle
  | log_parse_error
deriving DecidableEq

/-- The message-reference parse at the top of `_forwarding_job_runner`
(worker.py lines 374-376): strip trailing `/`, split on `/`, take
`parts[-2]` as the chat and `int(parts[-1])` as the message id;
`none` models the `IndexError`/`ValueError` raised (and caught by the
outer `except`) when fewer than two segments exist or the last segment
is not an integer. -/
def parse_message_ref (link : List Char) : Option (List Char × Int) :=
  match (splitOnChar '/' (rstripChar '/' link)).reverse with
  | last :: prev :: _ => (pyInt? last).map (fun n => (prev, n))
  | _ => none

/-- One iteration of the `for target in targets` loop of
`_forwarding_job_runner` (worker.py lines 383-399), given the external
delivery outcome for that target (`true` = the attempt returned,
`false` = it raised): the `asyncio.sleep(cycle_delay)` is INSIDE the
`try`, after the delivery, so it runs only when the attempt succeeded
— a failed target jumps to the inner `except` (which logs) and
straight on to the next target. -/
def broadcastStep (p : List Char × Bool) : List JobEvent :=
  if p.2 then [JobEvent.deliver p.1 true, JobEvent.sleep_cycle]
  else [JobEvent.deliver p.1 false]

/-- `_forwarding_job_runner` (worker.py lines 369-404) as an event
trace, parameterised by the per-target delivery outcomes. On a parse
failure of the message reference the outer `except` logs and nothing
else happens; otherwise the initial sleep runs, then the target loop. -/
def forwarding_job_runner (link : List Char)
    (outcomes : List (List Char × Bool)) : List JobEvent :=
  match parse_message_ref link with
  | none => [JobEvent.log_parse_error]
  | some _ => JobEvent.sleep_initial :: outcomes.flatMap broadcastStep

/-- The delivery attempts of a job trace, in order, with their
outcomes. -/
def delivers : List JobEvent → List (List Char × Bool)
  | [] => []
  | JobEvent.deliver t ok :: rest => (t, ok) :: delivers rest
  | _ :: rest => delivers rest

/-- "After every attempted target the runner sleeps `cycleDelay`":
every `deliver` event is immediately followed by a `sleep_cycle`. -/
def deliverFollowedBySleep : List JobEvent → Bool
  | [] => true
  | JobEvent.deliver _ _ :: rest =>
    (match rest with
     | JobEvent.sleep_cycle :: _ => true
     | _ => false) && deliverFollowedBySleep rest
  | _ :: rest => deliverFollowedBySleep rest

/-- The cycle sleeps of a trace track delivery success exactly: each
successful `deliver` is immediately followed by one `sleep_cycle`,
each failed `deliver` is not, and no `sleep_cycle` appears anywhere
else. -/
def sleepsMatchSuccess : List JobEvent → Bool
  | [] => true
  | JobEvent.deliver _ true :: JobEvent.sleep_cycle :: rest => sleepsMatchSuccess rest
  | JobEvent.deliver _ true :: _ => false
  | JobEvent.deliver _ false :: JobEvent.sleep_cycle :: _ => false
  | JobEvent.deliver _ false :: rest => sleepsMatchSuccess rest
  | JobEvent.sleep_cycle :: _ => false
  | _ :: rest => sleepsMatchSuccess rest

/-- External outcome of one `JoinChannelRequest` in
`join_groups_for_account`: it returns, raises
`UserAlreadyParticipantError`, or raises some other exception with a
message. -/
inductive JoinOutcome where
  | joined
  | alreadyMember
  | failed (reason : List Char)

/-- One entry of the result list built by `join_groups_for_account`. -/
structure JoinResult where
  link : List Char
  status : List Char
  reason : List Char
deriving DecidableEq, Repr

/-- Observable steps of the join loop: one join attempt per non-blank
link, and the fixed anti-flood `asyncio.sleep(5)`. -/
inductive JoinEvent where
  | attempt (link : List Char)
  | sleep_pacing
deriving DecidableEq, Repr

/-- The `for link in group_links` loop of `join_groups_for_account`
(worker.py lines 200-217): a blank link is skipped entirely
(`continue` runs before any attempt or sleep); otherwise the join is
attempted, classified into a result, and the unconditional
`asyncio.sleep(5)` at the bottom of the loop body runs — after every
attempt, the last one included. -/
def join_go (outcome : List Char → JoinOutcome) :
    List (List Char) → List JoinResult × List JoinEvent
  | [] => ([], [])
  | l :: rest =>
    if (pyStrip l).isEmpty then join_go outcome rest
    else
      let p := join_go outcome rest
      let r :=
        match outcome l with
        | JoinOutcome.joined =>
          ({ link := l, status := "success".data, reason := "Successfully joined".data } : JoinResult)
        | JoinOutcome.alreadyMember =>
          { link := l, status := "skipped".data, reason := "Already a member".data }
        | JoinOutcome.failed reason =>
          { link := l, status := "error".data, reason := reason }
      (r :: p.1, JoinEvent.attempt l :: JoinEvent.sleep_pacing :: p.2)

/-- `join_groups_for_account` (worker.py lines 189-219): when the
account's phone is not a key of `self.clients` (`connected = false`),
it immediately returns one error result per requested link with reason
"Account is not online", attempting nothing and sleeping never;
otherwise it runs the join loop. Returns (results, event trace). -/
def join_groups_for_account (connected : Bool) (links : List (List Char))
    (outcome : List Char → JoinOutcome) : List JoinResult × List JoinEvent :=
  if !connected then
    (links.map (fun l =>
      { link := l, status := "error".data, reason := "Account is not online".data }), [])
  else join_go outcome links

/-- The attempted links of a join trace, in order. -/
def attemptsOf : List JoinEvent → List (List Char)
  | [] => []
  | JoinEvent.attempt l :: rest => l :: attemptsOf rest
  | _ :: rest => attemptsOf rest

/-- Every `attempt` in the trace — the last one included — is
immediately followed by a `sleep_pacing`, and every `sleep_pacing`
follows an `attempt`. -/
def attemptFollowedBySleep : List JoinEvent → Bool
  | [] => true
  | JoinEvent.attempt _ :: JoinEvent.sleep_pacing :: rest => attemptFollowedBySleep rest
  | JoinEvent.attempt _ :: _ => false
  | JoinEvent.sleep_pacing :: _ => false

/-- The word-character class `[a-zA-Z0-9_]` of the `usernames`
extraction regex. -/
def isWordChar (c : Char) : Bool :=
  ('a' ≤ c && c ≤ 'z') || ('A' ≤ c && c ≤ 'Z') || isAsciiDigit c || c = '_'

/-- Fuelled scanner implementing `re.findall(r"@([a-zA-Z0-9_]{5,32})", s)`
on one message text: scan left to right; at an `@`, take the maximal
run of word characters that follows; if it has at least 5 characters
the (greedy, at most 32 characters) group is a match and scanning
resumes after it, otherwise scanning resumes right after the `@`.
Each step consumes at least one character, so fuel `s.length`
suffices. -/
def find_usernames_aux : Nat → List Char → List (List Char)
  | 0, _ => []
  | _ + 1, [] => []
  | fuel + 1, c :: rest =>
    if c = '@' then
      let run := rest.takeWhile isWordChar
      if 5 ≤ run.length then
        run.take 32 :: find_usernames_aux fuel (rest.drop (run.take 32).length)
      else find_usernames_aux fuel rest
    else find_usernames_aux fuel rest

/-- All matches of the `usernames` pattern in one message text, in
scan order (group contents, without the leading `@`). -/
def find_usernames (s : List Char) : List (List Char) :=
  find_usernames_aux s.length s

/-- The `usernames` results contributed by one message in
`extract_from_channel` (worker.py lines 333-344): each regex group is
re-prefixed with `@` when it does not already start with one (the
group's character class cannot contain `@`, but the code's conditional
is kept). -/
def usernameMatches (text : List Char) : List String :=
  (find_usernames text).map (fun u =>
    match u with
    | '@' :: _ => String.mk u
    | _ => String.mk ('@' :: u))

/-- `extract_from_channel` with `extract_type = "usernames"`, on the
texts of the scanned messages: matches accumulate into a set
(`results.add`) and the method returns `sorted(list(results))` —
here `dedup` followed by insertion sort under the lexicographic
string order. -/
def extract_usernames (messages : List (List Char)) : List String :=
  List.insertionSort (· ≤ ·) ((messages.flatMap usernameMatches).dedup)

/-- Parameters of `WorkerManager.start_interactive_session`
(worker.py line 223) that a caller must supply: `websocket` and
`owner_user` (neither has a default). -/
def start_interactive_session_required_params : Nat := 2

/-- Arguments supplied by the call
`worker_manager.start_interactive_session(websocket)` in
`websocket_add_account` (main.py line 127). -/
def websocket_add_account_given_args : Nat := 1

/-- Python call binding for a parameter list with no defaults and no
varargs: the call binds iff exactly the required number of arguments
is supplied; otherwise a `TypeError` is raised before the callee's
body runs. -/
def py_call_binds (required given : Nat) : Bool := given = required

/-- Outcome of one `/ws/add_account` connection: either the call into
`start_interactive_session` raises a `TypeError` at binding time (the
endpoint's `except` clause only catches `WebSocketDisconnect`, so the
error propagates and the flow never starts), or the onboarding flow
body actually begins. -/
inductive AddAccountOutcome where
  | type_error
  | flow_started
deriving DecidableEq, Repr

/-- What `websocket_add_account` does after `websocket.accept()`:
attempt the bound-method call with one argument against a signature
requiring two. -/
def websocket_add_account_call : AddAccountOutcome :=
  if py_call_binds start_interactive_session_required_params
      websocket_add_account_given_args
  then AddAccountOutcome.flow_started
  else AddAccountOutcome.type_error

/-- Number of prompts the endpoint manages to send: the first prompt
is the first statement of `start_interactive_session`'s body, which
only runs if the call binds. -/
def add_account_prompts_sent : Nat :=
  match websocket_add_account_call with
  | AddAccountOutcome.type_error => 0
  | AddAccountOutcome.flow_started => 1

/-- Number of account records the endpoint can upsert: the
`accounts_collection.update_one(..., upsert=True)` lives inside
`start_interactive_session`'s body, so none on the `TypeError` path
(at most one otherwise). -/
def add_account_records_created : Nat :=
  match websocket_add_account_call with
  | AddAccountOutcome.type_error => 0
  | AddAccountOutcome.flow_started => 1

/-- Sample `AutoReplyConfig` used to witness the auto-reply theorem. -/
def sampleAutoReply : AutoReplySettings :=
  { message := "pong".data, keywords := "hi, yo".data }

/-- Sample private inbound event used to witness the handler theorems. -/
def sampleEvent : InboundEvent :=
  { chat_id := 7, raw_text := "say HI there".data, is_private := true, out := false }

/-- Sample `SmartSellingConfig` used to witness the truth-table theorem. -/
def sampleSmart : SmartSellingSettings :=
  { enabled := true, message := "offer".data,
    must_contain := "price".data, maybe_contain := "usd, eur".data }

/-- Sample message batch used to witness the extraction theorem. -/
def sampleMessages : List (List Char) :=
  ["zz @zebra_one".data, "@apple_pie yo".data]

/-- `sampleMessages` in the opposite scan order. -/
def sampleMessagesSwapped : List (List Char) :=
  ["@apple_pie yo".data, "zz @zebra_one".data]

/-- The head of a non-empty broadcast-loop trace is always a delivery
attempt (each loop iteration's trace starts with its `deliver`). -/
lemma flatMapStep_head (outcomes : List (List Char × Bool)) (e : JobEvent)
    (l : List JobEvent) (h : outcomes.flatMap broadcastStep = e :: l) :
    ∃ t ok, e = JobEvent.deliver t ok := by
  match outcomes with
  | [] => simp at h
  | (t, b) :: rest =>
    cases b <;> simp [broadcastStep, List.flatMap_cons] at h <;>
      exact ⟨t, _, h.1.symm⟩

/-- In the trace of the broadcast target loop, cycle sleeps track
delivery success exactly. -/
lemma sleepsMatch_flatMap (outcomes : List (List Char × Bool)) :
    sleepsMatchSuccess (outcomes.flatMap broadcastStep) = true := by
  induction outcomes with
  | nil => rfl
  | cons p rest ih =>
    obtain ⟨t, b⟩ := p
    cases b with
    | true =>
      show sleepsMatchSuccess
        (JobEvent.deliver t true :: JobEvent.sleep_cycle :: rest.flatMap broadcastStep) = true
      exact ih
    | false =>
      show sleepsMatchSuccess
        (JobEvent.deliver t false :: rest.flatMap broadcastStep) = true
      cases hfr : rest.flatMap broadcastStep with
      | nil => rfl
      | cons e l' =>
        obtain ⟨t2, ok2, rfl⟩ := flatMapStep_head rest e l' hfr
        show sleepsMatchSuccess (JobEvent.deliver t2 ok2 :: l') = true
        rw [← hfr]
        exact ih

/-- The broadcast target loop attempts every target, in order, with
its given outcome: no failure aborts the remaining targets. -/
lemma delivers_flatMap (outcomes : List (List Char × Bool)) :
    delivers (outcomes.flatMap broadcastStep) = outcomes := by
  induction outcomes with
  | nil => rfl
  | cons p rest ih =>
    obtain ⟨t, b⟩ := p
    cases b with
    | true =>
      show (t, true) :: delivers (rest.flatMap broadcastStep) = (t, true) :: rest
      rw [ih]
    | false =>
      show (t, false) :: delivers (rest.flatMap broadcastStep) = (t, false) :: rest
      rw [ih]

/-- The join loop attempts exactly the non-blank links, in order, and
every attempt — the final one included — is immediately followed by
the pacing sleep. -/
lemma join_go_spec (outcome : List Char → JoinOutcome) (links : List (List Char)) :
    attemptsOf (join_go outcome links).2 = links.filter (fun l => !(pyStrip l).isEmpty) ∧
    attemptFollowedBySleep (join_go outcome links).2 = true := by
  induction links with
  | nil => exact ⟨rfl, rfl⟩
  | cons l rest ih =>
    by_cases hb : (pyStrip l).isEmpty
    · simp [join_go, hb, List.filter_cons, ih.1, ih.2]
    · simp only [join_go, hb, if_neg, Bool.not_false, List.filter_cons, if_pos]
      constructor
      · show l :: attemptsOf (join_go outcome rest).2 = _
        simp [hb, ih.1]
      · show attemptFollowedBySleep (join_go outcome rest).2 = true
        exact ih.2

/-- When every rule's source chat passes the digit filter and parses,
registration succeeds and listens on exactly the parsed source ids. -/
lemma source_chat_ids_eq (rules : List ForwardingRule)
    (h : ∀ r ∈ rules, pyIsDigitStr (lstripChar '-' r.source_chat) = true ∧
      (pyInt? r.source_chat).isSome = true) :
    source_chat_ids? rules = some (rules.filterMap (fun r => pyInt? r.source_chat)) := by
  induction rules with
  | nil => rfl
  | cons r rs ih =>
    obtain ⟨hf, hs⟩ := h r (List.mem_cons_self r rs)
    obtain ⟨n, hn⟩ := Option.isSome_iff_exists.mp hs
    have ih' := ih (fun x hx => h x (List.mem_cons_of_mem _ hx))
    simp [source_chat_ids?, sourceIdOfRule, hf, hn, ih', List.filterMap_cons]

/-- When every rule's source chat parses as an integer, the forwarding
handler never aborts, and it forwards to exactly the parsed
destinations of the rules whose parsed source equals the event's
chat. -/
lemma runHandler_spec (rules : List ForwardingRule) (chat : Int)
    (h : ∀ r ∈ rules, (pyInt? r.source_chat).isSome = true) :
    (runHandler rules chat).2 = true ∧
    ∀ d : Int, d ∈ (runHandler rules chat).1 ↔
      ∃ r ∈ rules, pyInt? r.source_chat = some chat ∧
        pyInt? r.destination_chat = some d := by
  induction rules with
  | nil => simp [runHandler]
  | cons r rs ih =>
    obtain ⟨s, hs⟩ := Option.isSome_iff_exists.mp (h r (List.mem_cons_self r rs))
    have ih' := ih (fun x hx => h x (List.mem_cons_of_mem _ hx))
    by_cases hsc : s = chat
    · rw [hsc] at hs
      cases hd : pyInt? r.destination_chat with
      | some dd =>
        refine ⟨by simp [runHandler, hs, hd, ih'.1], fun d => ?_⟩
        have hrw : (runHandler (r :: rs) chat).1 = dd :: (runHandler rs chat).1 := by
          simp [runHandler, hs, hd]
        rw [hrw, List.mem_cons, ih'.2 d]
        constructor
        · rintro (rfl | ⟨r', hr', h1, h2⟩)
          · exact ⟨r, List.mem_cons_self r rs, hs, hd⟩
          · exact ⟨r', List.mem_cons_of_mem _ hr', h1, h2⟩
        · rintro ⟨r', hr', h1, h2⟩
          rcases List.mem_cons.mp hr' with rfl | hr''
          · exact Or.inl (Option.some.inj (hd.symm.trans h2)).symm
          · exact Or.inr ⟨r', hr'', h1, h2⟩
      | none =>
        have hrw : runHandler (r :: rs) chat = runHandler rs chat := by
          simp [runHandler, hs, hd]
        refine ⟨hrw ▸ ih'.1, fun d => ?_⟩
        rw [hrw, ih'.2 d]
        constructor
        · rintro ⟨r', hr', h1, h2⟩
          exact ⟨r', List.mem_cons_of_mem _ hr', h1, h2⟩
        · rintro ⟨r', hr', h1, h2⟩
          rcases List.mem_cons.mp hr' with rfl | hr''
          · rw [hd] at h2
            exact Option.noConfusion h2
          · exact ⟨r', hr'', h1, h2⟩
    · have hrw : runHandler (r :: rs) chat = runHandler rs chat := by
        simp [runHandler, hs, hsc]
      refine ⟨hrw ▸ ih'.1, fun d => ?_⟩
      rw [hrw, ih'.2 d]
      constructor
      · rintro ⟨r', hr', h1, h2⟩
        exact ⟨r', List.mem_cons_of_mem _ hr', h1, h2⟩
      · rintro ⟨r', hr', h1, h2⟩
        rcases List.mem_cons.mp hr' with rfl | hr''
        · exact absurd (Option.some.inj (hs.symm.trans h1)) hsc
        · exact ⟨r', hr'', h1, h2⟩

/-- C1 (counterexample): the claimed iff fails on the code as stated.
With rules `[{source "x", dest "1"}, {source "5", dest "7"}]` and an
event in chat 5, rule 2 matches with destination 7, but the handler
evaluates `int("x")` outside the per-rule `try` while scanning rule 1,
raising an uncaught `ValueError` that aborts the loop, so no forward
to 7 happens. -/
theorem forward_iff_counterexample :
    ¬ (7 ∈ (sessionForwards [⟨"x".data, "1".data⟩, ⟨"5".data, "7".data⟩] 5).1 ↔
        ∃ r ∈ [(⟨"x".data, "1".data⟩ : ForwardingRule), ⟨"5".data, "7".data⟩],
          pyInt? r.source_chat = some 5 ∧ pyInt? r.destination_chat = some 7) := by
  decide

/-- C1 (amended): provided every rule of the loaded active rule set has
a numeric source chat — it passes the registration filter
`lstrip('-').isdigit()` and `int()` accepts it — the forwarding
handler forwards an inbound event to destination `d` if and only if
some rule's source chat parses to the event's chat and its destination
chat parses to `d`; an event matching no rule produces no forward, and
the handler runs to completion. Without that proviso a rule whose
source chat is not numeric aborts the per-event rule scan (see the
counterexample). -/
theorem forward_iff_of_numeric_sources (rules : List ForwardingRule) (chat d : Int)
    (hwf : ∀ r ∈ rules, pyIsDigitStr (lstripChar '-' r.source_chat) = true ∧
      (pyInt? r.source_chat).isSome = true) :
    (d ∈ (sessionForwards rules chat).1 ↔
      ∃ r ∈ rules, pyInt? r.source_chat = some chat ∧
        pyInt? r.destination_chat = some d) ∧
    (sessionForwards rules chat).2 = true := by
  have hids := source_chat_ids_eq rules hwf
  have hrh := runHandler_spec rules chat (fun r hr => (hwf r hr).2)
  unfold sessionForwards
  rw [hids]
  by_cases hc : chat ∈ rules.filterMap (fun r => pyInt? r.source_chat)
  · simp only [hc, if_pos]
    exact ⟨hrh.2 d, hrh.1⟩
  · simp only [hc, if_neg]
    refine ⟨⟨fun hmem => absurd hmem (List.not_mem_nil d), fun hex => ?_⟩, rfl⟩
    obtain ⟨r, hr, h1, _⟩ := hex
    exact absurd (List.mem_filterMap.mpr ⟨r, hr, h1⟩) hc

/-- Witness for C1 (amended) at the one-rule set `{source "5",
dest "7"}` and an event in chat 5. -/
theorem forward_iff_of_numeric_sources_witness :
    (∀ r ∈ [(⟨"5".data, "7".data⟩ : ForwardingRule)],
      pyIsDigitStr (lstripChar '-' r.source_chat) = true ∧
        (pyInt? r.source_chat).isSome = true) ∧
    ((7 ∈ (sessionForwards [(⟨"5".data, "7".data⟩ : ForwardingRule)] 5).1 ↔
        ∃ r ∈ [(⟨"5".data, "7".data⟩ : ForwardingRule)],
          pyInt? r.source_chat = some 5 ∧ pyInt? r.destination_chat = some 7) ∧
      (sessionForwards [(⟨"5".data, "7".data⟩ : ForwardingRule)] 5).2 = true) :=
  ⟨by decide, forward_iff_of_numeric_sources _ 5 7 (by decide)⟩

/-- C2: for a private, inbound message on a session whose smart-selling
config is enabled with a non-empty message, the smart-selling handler
replies (with exactly the configured message) according to the
truth table over the lower-cased text: must and maybe non-empty →
all must-keywords present and some maybe-keyword present; must
non-empty, maybe empty → all must-keywords present; must empty, maybe
non-empty → some maybe-keyword present; both empty → never. -/
theorem smart_selling_truth_table (s : SmartSellingSettings) (event : InboundEvent)
    (hen : s.enabled = true) (hmsg : s.message ≠ [])
    (hpriv : event.is_private = true) (hout : event.out = false) :
    (parseKeywords s.must_contain ≠ [] → parseKeywords s.maybe_contain ≠ [] →
      (smart_selling_handler s event = [s.message] ↔
        (∀ k ∈ parseKeywords s.must_contain,
          containsSub k (pyLower event.raw_text) = true) ∧
        ∃ k ∈ parseKeywords s.maybe_contain,
          containsSub k (pyLower event.raw_text) = true)) ∧
    (parseKeywords s.must_contain ≠ [] → parseKeywords s.maybe_contain = [] →
      (smart_selling_handler s event = [s.message] ↔
        ∀ k ∈ parseKeywords s.must_contain,
          containsSub k (pyLower event.raw_text) = true)) ∧
    (parseKeywords s.must_contain = [] → parseKeywords s.maybe_contain ≠ [] →
      (smart_selling_handler s event = [s.message] ↔
        ∃ k ∈ parseKeywords s.maybe_contain,
          containsSub k (pyLower event.raw_text) = true)) ∧
    (parseKeywords s.must_contain = [] → parseKeywords s.maybe_contain = [] →
      smart_selling_handler s event = []) ∧
    (smart_selling_handler s event = [] ∨ smart_selling_handler s event = [s.message]) := by
  simp only [smart_selling_handler, hpriv, hout, Bool.not_false, Bool.and_true, if_true]
  by_cases hmu : parseKeywords s.must_contain = [] <;>
    by_cases hma : parseKeywords s.maybe_contain = []
  · simp [hmu, hma]
  · by_cases ha : (parseKeywords s.maybe_contain).any
        (fun k => containsSub k (pyLower event.raw_text)) = true
    · simp only [List.any_eq_true] at ha
      simp [hmu, hma, ha]
    · simp only [List.any_eq_true] at ha
      simp [hmu, hma, ha]
  · by_cases hal : (parseKeywords s.must_contain).all
        (fun k => containsSub k (pyLower event.raw_text)) = true
    · simp only [List.all_eq_true] at hal
      simp [hmu, hma, hal]
      exact Or.inr hal
    · simp only [List.all_eq_true] at hal
      simp [hmu, hma, hal]
  · by_cases hal : (parseKeywords s.must_contain).all
        (fun k => containsSub k (pyLower event.raw_text)) = true <;>
      by_cases ha : (parseKeywords s.maybe_contain).any
        (fun k => containsSub k (pyLower event.raw_text)) = true
    · simp only [List.all_eq_true] at hal
      simp only [List.any_eq_true] at ha
      simp [hmu, hma, hal, ha]
      exact Or.inr hal
    · simp only [List.all_eq_true] at hal
      simp only [List.any_eq_true] at ha
      simp [hmu, hma, hal, ha]
    · simp only [List.all_eq_true] at hal
      simp only [List.any_eq_true] at ha
      simp [hmu, hma, hal, ha]
    · simp only [List.all_eq_true] at hal
      simp only [List.any_eq_true] at ha
      simp [hmu, hma, hal, ha]

/-- Witness for C2 at `sampleSmart` (must "price", maybe "usd, eur")
and `sampleEvent`. -/
theorem smart_selling_truth_table_witness :
    sampleSmart.enabled = true ∧ sampleSmart.message ≠ [] ∧
      sampleEvent.is_private = true ∧ sampleEvent.out = false ∧
    ((parseKeywords sampleSmart.must_contain ≠ [] →
        parseKeywords sampleSmart.maybe_contain ≠ [] →
      (smart_selling_handler sampleSmart sampleEvent = [sampleSmart.message] ↔
        (∀ k ∈ parseKeywords sampleSmart.must_contain,
          containsSub k (pyLower sampleEvent.raw_text) = true) ∧
        ∃ k ∈ parseKeywords sampleSmart.maybe_contain,
          containsSub k (pyLower sampleEvent.raw_text) = true)) ∧
    (parseKeywords sampleSmart.must_contain ≠ [] →
        parseKeywords sampleSmart.maybe_contain = [] →
      (smart_selling_handler sampleSmart sampleEvent = [sampleSmart.message] ↔
        ∀ k ∈ parseKeywords sampleSmart.must_contain,
          containsSub k (pyLower sampleEvent.raw_text) = true)) ∧
    (parseKeywords sampleSmart.must_contain = [] →
        parseKeywords sampleSmart.maybe_contain ≠ [] →
      (smart_selling_handler sampleSmart sampleEvent = [sampleSmart.message] ↔
        ∃ k ∈ parseKeywords sampleSmart.maybe_contain,
          containsSub k (pyLower sampleEvent.raw_text) = true)) ∧
    (parseKeywords sampleSmart.must_contain = [] →
        parseKeywords sampleSmart.maybe_contain = [] →
      smart_selling_handler sampleSmart sampleEvent = []) ∧
    (smart_selling_handler sampleSmart sampleEvent = [] ∨
      smart_selling_handler sampleSmart sampleEvent = [sampleSmart.message])) :=
  ⟨rfl, by decide, rfl, rfl,
    smart_selling_truth_table sampleSmart sampleEvent rfl (by decide) rfl rfl⟩

/-- C3: for a private, inbound message on a session whose auto-reply
config has a non-empty message, the auto-reply handler with a
non-empty parsed keyword list replies if and only if some keyword is a
substring of the lower-cased text; with an empty keyword list it
replies to every such message; and in all cases it sends either no
reply or exactly one reply, the configured message. -/
theorem auto_reply_behavior (settings : AutoReplySettings) (event : InboundEvent)
    (hmsg : settings.message ≠ []) (hpriv : event.is_private = true)
    (hout : event.out = false) :
    (parseKeywords settings.keywords ≠ [] →
      (auto_reply_handler settings event = [settings.message] ↔
        ∃ k ∈ parseKeywords settings.keywords,
          containsSub k (pyLower event.raw_text) = true)) ∧
    (parseKeywords settings.keywords = [] →
      auto_reply_handler settings event = [settings.message]) ∧
    (auto_reply_handler settings event = [] ∨
      auto_reply_handler settings event = [settings.message]) := by
  simp only [auto_reply_handler, hpriv, hout, Bool.not_false, Bool.and_true, if_true]
  by_cases hk : parseKeywords settings.keywords = []
  · simp [hk]
  · by_cases ha : (parseKeywords settings.keywords).any
        (fun k => containsSub k (pyLower event.raw_text)) = true
    · simp only [List.any_eq_true] at ha
      simp [hk, ha]
    · simp only [List.any_eq_true] at ha
      simp [hk, ha]

/-- Witness for C3 at `sampleAutoReply` (keywords "hi, yo") and
`sampleEvent` (text "say HI there"). -/
theorem auto_reply_behavior_witness :
    sampleAutoReply.message ≠ [] ∧ sampleEvent.is_private = true ∧
      sampleEvent.out = false ∧
    ((parseKeywords sampleAutoReply.keywords ≠ [] →
      (auto_reply_handler sampleAutoReply sampleEvent = [sampleAutoReply.message] ↔
        ∃ k ∈ parseKeywords sampleAutoReply.keywords,
          containsSub k (pyLower sampleEvent.raw_text) = true)) ∧
    (parseKeywords sampleAutoReply.keywords = [] →
      auto_reply_handler sampleAutoReply sampleEvent = [sampleAutoReply.message]) ∧
    (auto_reply_handler sampleAutoReply sampleEvent = [] ∨
      auto_reply_handler sampleAutoReply sampleEvent = [sampleAutoReply.message])) :=
  ⟨by decide, rfl, rfl, auto_reply_behavior sampleAutoReply sampleEvent (by decide) rfl rfl⟩

/-- C4 (counterexample): on the connection-failure path the LAST status
persisted is not `Error` — the `finally` block runs after the `except`
block and overwrites it with `Offline`. -/
theorem error_final_status_counterexample :
    ¬ ((run_client_model RunOutcome.connectFail).status_writes.getLast? =
        some AccountStatus.Error) := by decide

/-- C4 (amended): on every termination path of `_run_client` — the
connection-failure path included — the final persisted status is
`Offline` (written by the `finally` block) and the account is absent
from the registry; `Error` is persisted, transiently, exactly on the
failure paths. `Offline` is therefore not exclusive to the non-failure
disconnect path. -/
theorem run_client_status_final (o : RunOutcome) :
    (run_client_model o).status_writes.getLast? = some AccountStatus.Offline ∧
    (run_client_model o).in_registry_after = false ∧
    (AccountStatus.Error ∈ (run_client_model o).status_writes ↔
      o ≠ RunOutcome.cleanDisconnect) := by
  cases o <;> refine ⟨rfl, rfl, by decide⟩

/-- C5 (counterexample): with a parseable message reference and targets
`[("a", fails), ("b", succeeds)]`, the failed target "a" is NOT
followed by a cycle sleep — the `asyncio.sleep(cycle_delay)` sits
inside the `try`, so the claim "after every attempted target the
runner sleeps cycleDelay" is false. -/
theorem cycle_delay_after_failure_counterexample :
    (parse_message_ref "t.me/c/1".data).isSome = true ∧
    deliverFollowedBySleep
      (forwarding_job_runner "t.me/c/1".data [("a".data, false), ("b".data, true)]) =
      false := by
  constructor <;> decide

/-- C5 (amended): in a broadcast job with a parseable message
reference, every target is attempted in order with its own outcome (a
per-target failure is logged and never aborts the remaining targets),
and the runner sleeps `cycleDelay` exactly after each successfully
delivered target — a failed target proceeds to the next one with no
cycle sleep. -/
theorem cycle_delay_after_success_only (link : List Char)
    (outcomes : List (List Char × Bool)) (h : (parse_message_ref link).isSome = true) :
    delivers (forwarding_job_runner link outcomes) = outcomes ∧
    sleepsMatchSuccess (forwarding_job_runner link outcomes) = true := by
  obtain ⟨r, hr⟩ := Option.isSome_iff_exists.mp h
  unfold forwarding_job_runner
  rw [hr]
  exact ⟨delivers_flatMap outcomes, sleepsMatch_flatMap outcomes⟩

/-- Witness for C5 (amended) at reference "t.me/c/1" with one failing
and one succeeding target. -/
theorem cycle_delay_after_success_only_witness :
    (parse_message_ref "t.me/c/1".data).isSome = true ∧
    (delivers (forwarding_job_runner "t.me/c/1".data [("a".data, false), ("b".data, true)]) =
        [("a".data, false), ("b".data, true)] ∧
      sleepsMatchSuccess
        (forwarding_job_runner "t.me/c/1".data [("a".data, false), ("b".data, true)]) =
        true) :=
  ⟨by decide, cycle_delay_after_success_only _ _ (by decide)⟩

/-- C6 (counterexample): on a connected account with the single link
"a", the join trace is attempt-then-sleep: the pacing delay DOES occur
after the final attempt (the `asyncio.sleep(5)` is unconditional at
the bottom of the loop body), contradicting "no trailing delay after
the final attempt". -/
theorem no_trailing_pacing_counterexample :
    (join_groups_for_account true ["a".data] (fun _ => JoinOutcome.joined)).2 =
      [JoinEvent.attempt "a".data, JoinEvent.sleep_pacing] ∧
    ((join_groups_for_account true ["a".data] (fun _ => JoinOutcome.joined)).2).getLast? =
      some JoinEvent.sleep_pacing := by
  constructor <;> rfl

/-- C6 (amended): on a connected account the join loop attempts exactly
the non-blank links, in their given order, and inserts the fixed
pacing delay immediately after EVERY attempt — the final attempt
included, whether or not another attempt follows; blank links are
skipped with neither attempt nor delay. -/
theorem pacing_after_every_attempt (links : List (List Char))
    (outcome : List Char → JoinOutcome) :
    attemptsOf (join_groups_for_account true links outcome).2 =
      links.filter (fun l => !(pyStrip l).isEmpty) ∧
    attemptFollowedBySleep (join_groups_for_account true links outcome).2 = true := by
  simpa [join_groups_for_account] using join_go_spec outcome links

/-- C7: when the requested account's session is not in the registry,
joinAll returns one result per requested link — each with status
"error" and reason "Account is not online", carrying the links in
order — attempts no join and performs no pacing delay; in particular
for links ["a", "b"] it returns exactly two such error results. -/
theorem join_offline_short_circuit (links : List (List Char))
    (outcome : List Char → JoinOutcome) :
    (join_groups_for_account false links outcome).1.map JoinResult.link = links ∧
    (∀ res ∈ (join_groups_for_account false links outcome).1,
      res.status = "error".data ∧ res.reason = "Account is not online".data) ∧
    (join_groups_for_account false links outcome).2 = [] ∧
    (join_groups_for_account false ["a".data, "b".data] outcome).1 =
      [{ link := "a".data, status := "error".data,
         reason := "Account is not online".data },
       { link := "b".data, status := "error".data,
         reason := "Account is not online".data }] := by
  refine ⟨?_, ?_, rfl, rfl⟩
  · simp [join_groups_for_account, Function.comp_def]
  · intro res hres
    simp [join_groups_for_account] at hres
    obtain ⟨l, _, rfl⟩ := hres
    exact ⟨rfl, rfl⟩

/-- C8: a broadcast job whose message reference does not parse as
chat/messageId performs zero deliveries to any target: its whole trace
is the outer except-block's logged parse error (so no exception
escapes the background runner). -/
theorem broadcast_unparsable_no_deliveries (link : List Char)
    (outcomes : List (List Char × Bool)) (h : parse_message_ref link = none) :
    forwarding_job_runner link outcomes = [JobEvent.log_parse_error] ∧
    delivers (forwarding_job_runner link outcomes) = [] ∧
    JobEvent.log_parse_error ∈ forwarding_job_runner link outcomes := by
  simp [forwarding_job_runner, h, delivers]

/-- Witness for C8 at the reference "https://t.me/chan/abc", whose last
path segment is not an integer. -/
theorem broadcast_unparsable_no_deliveries_witness :
    parse_message_ref "https://t.me/chan/abc".data = none ∧
    (forwarding_job_runner "https://t.me/chan/abc".data [("x".data, true)] =
        [JobEvent.log_parse_error] ∧
      delivers (forwarding_job_runner "https://t.me/chan/abc".data [("x".data, true)]) =
        [] ∧
      JobEvent.log_parse_error ∈
        forwarding_job_runner "https://t.me/chan/abc".data [("x".data, true)]) :=
  ⟨by decide, broadcast_unparsable_no_deliveries _ _ (by decide)⟩

/-- C9: on success, username extraction returns a list that is
invariant under permutation of the scanned messages, sorted, free of
duplicates, and whose members are exactly the (re-prefixed) matches of
the pattern over all scanned messages; on "contact @foo_bar or @ab" it
returns exactly ["@foo_bar"], since "ab" is shorter than the
pattern's 5-character minimum. -/
theorem extract_usernames_sorted_dedup (messages messages' : List (List Char))
    (hperm : messages.Perm messages') :
    extract_usernames messages = extract_usernames messages' ∧
    List.Sorted (· ≤ ·) (extract_usernames messages) ∧
    (extract_usernames messages).Nodup ∧
    (∀ u : String, u ∈ extract_usernames messages ↔
      u ∈ messages.flatMap usernameMatches) ∧
    extract_usernames ["contact @foo_bar or @ab".data] = ["@foo_bar"] := by
  refine ⟨?_, ?_, ?_, ?_, ?_⟩
  · have h1 : (messages.flatMap usernameMatches).dedup.Perm
        (messages'.flatMap usernameMatches).dedup :=
      (hperm.flatMap_right usernameMatches).dedup
    exact List.eq_of_perm_of_sorted
      (((List.perm_insertionSort _ _).trans h1).trans (List.perm_insertionSort _ _).symm)
      (List.sorted_insertionSort _ _) (List.sorted_insertionSort _ _)
  · exact List.sorted_insertionSort _ _
  · exact ((List.perm_insertionSort _ _).nodup_iff).mpr (List.nodup_dedup _)
  · intro u
    unfold extract_usernames
    rw [List.mem_insertionSort, List.mem_dedup]
  · decide

/-- Witness for C9 at `sampleMessages` and its permutation
`sampleMessagesSwapped`. -/
theorem extract_usernames_sorted_dedup_witness :
    sampleMessages.Perm sampleMessagesSwapped ∧
    (extract_usernames sampleMessages = extract_usernames sampleMessagesSwapped ∧
    List.Sorted (· ≤ ·) (extract_usernames sampleMessages) ∧
    (extract_usernames sampleMessages).Nodup ∧
    (∀ u : String, u ∈ extract_usernames sampleMessages ↔
      u ∈ sampleMessages.flatMap usernameMatches) ∧
    extract_usernames ["contact @foo_bar or @ab".data] = ["@foo_bar"]) :=
  ⟨by decide,
    extract_usernames_sorted_dedup sampleMessages sampleMessagesSwapped (by decide)⟩

/-- C10: every invocation of the /ws/add_account endpoint raises a
`TypeError` at the call into `start_interactive_session` (one argument
supplied against two required parameters), so the flow body never
starts: no prompt is ever sent and no account record can be
created through this endpoint. -/
theorem add_account_always_type_error :
    websocket_add_account_call = AddAccountOutcome.type_error ∧
    add_account_prompts_sent = 0 ∧ add_account_records_created = 0 := by decide
